import Mathlib

/-!
Verification of the `ChunkType` value type from `src/chunk_type.rs` of the
pngcrypt repository: a 4-byte PNG chunk-type tag with case-bit predicates,
two fallible constructors (`TryFrom<[u8;4]>` and `FromStr`) and a `Display`
implementation.

Shallow embedding conventions:
* a `u8` is a `Nat` (all operations here are range comparisons, no overflow);
* a Rust `&str` is a `List Char` of Unicode scalar values; Rust's `s.len()`
  is the length of its UTF-8 encoding, `s.chars()` iterates the list itself;
* fallible operations return `Except TagError _`; the panic that
  `bytes.clone_from_slice(s.as_bytes())` raises when the slice lengths differ
  is surfaced as the distinguished error `TagError.panicLengthMismatch`, and
  the panic of `.expect` on `std::str::from_utf8` in `Display` is surfaced by
  `display` returning `none`.
-/

namespace Pngcrypt

/-- `u8::is_ascii_uppercase`: `b'A'..=b'Z'`. -/
def isAsciiUppercase (b : Nat) : Bool :=
  decide (65 ≤ b ∧ b ≤ 90)

/-- `u8::is_ascii_lowercase`: `b'a'..=b'z'`. -/
def isAsciiLowercase (b : Nat) : Bool :=
  decide (97 ≤ b ∧ b ≤ 122)

/-- `u8::is_ascii_alphabetic`: uppercase or lowercase ASCII letter. -/
def isAsciiAlphabetic (b : Nat) : Bool :=
  isAsciiUppercase b || isAsciiLowercase b

/-- `char::is_ascii_alphabetic` on a Unicode scalar value: the same ranges,
read off the code point. -/
def isAsciiAlphabeticChar (c : Char) : Bool :=
  isAsciiAlphabetic c.toNat

/-- `pub struct ChunkType([u8; 4])`: four raw bytes. -/
structure ChunkType where
  b0 : Nat
  b1 : Nat
  b2 : Nat
  b3 : Nat
deriving DecidableEq, Repr

namespace ChunkType

/-- `ChunkType::bytes`: the stored 4 bytes, in order. -/
def bytes (t : ChunkType) : List Nat :=
  [t.b0, t.b1, t.b2, t.b3]

/-- Indexing `self.bytes()[i]` (every use in the source is in range). -/
def byteAt (t : ChunkType) (i : Nat) : Nat :=
  (bytes t).getD i 0

/-- `ChunkType::is_critical`: byte 0 is uppercase ASCII. -/
def is_critical (t : ChunkType) : Bool :=
  isAsciiUppercase (byteAt t 0)

/-- `ChunkType::is_public`: byte 1 is uppercase ASCII. -/
def is_public (t : ChunkType) : Bool :=
  isAsciiUppercase (byteAt t 1)

/-- `ChunkType::is_reserved_bit_valid`: byte 2 is uppercase ASCII. -/
def is_reserved_bit_valid (t : ChunkType) : Bool :=
  isAsciiUppercase (byteAt t 2)

/-- `ChunkType::is_safe_to_copy`: byte 3 is lowercase ASCII. -/
def is_safe_to_copy (t : ChunkType) : Bool :=
  isAsciiLowercase (byteAt t 3)

/-- `ChunkType::is_valid`: the loop `for i in 0..3` that returns `false` as
soon as `!self.bytes()[i].is_ascii_alphabetic() || !self.is_reserved_bit_valid()`
holds, and `true` once the loop completes. -/
def is_valid (t : ChunkType) : Bool :=
  (List.range 3).all fun i =>
    isAsciiAlphabetic (byteAt t i) && is_reserved_bit_valid t

end ChunkType

/-- The failure modes of the two constructors. The source uses `&'static str`
messages; the spec names them `InvalidCharacter` and `TooLong`.
`panicLengthMismatch` stands for the panic `clone_from_slice` raises when the
source slice is not exactly 4 bytes long. -/
inductive TagError where
  | tooLong
  | invalidCharacter
  | panicLengthMismatch
deriving DecidableEq, Repr

deriving instance DecidableEq for Except

/-- `TryFrom<[u8; 4]> for ChunkType`: the loop `for i in 0..3` rejecting a
non-alphabetic byte among the first three, unrolled; byte 3 is not inspected. -/
def try_from (b0 b1 b2 b3 : Nat) : Except TagError ChunkType :=
  if ! isAsciiAlphabetic b0 then .error .invalidCharacter
  else if ! isAsciiAlphabetic b1 then .error .invalidCharacter
  else if ! isAsciiAlphabetic b2 then .error .invalidCharacter
  else .ok ⟨b0, b1, b2, b3⟩

/-- The UTF-8 encoding of one Unicode scalar value, as Rust's `str::as_bytes`
produces it. -/
def charUtf8Bytes (c : Char) : List Nat :=
  let v := c.toNat
  if v < 0x80 then [v]
  else if v < 0x800 then [0xC0 + v / 0x40, 0x80 + v % 0x40]
  else if v < 0x10000 then
    [0xE0 + v / 0x1000, 0x80 + v / 0x40 % 0x40, 0x80 + v % 0x40]
  else
    [0xF0 + v / 0x40000, 0x80 + v / 0x1000 % 0x40,
     0x80 + v / 0x40 % 0x40, 0x80 + v % 0x40]

/-- `str::as_bytes` of the whole string: the concatenated UTF-8 encodings.
Its length is Rust's `s.len()`. -/
def strUtf8 (s : List Char) : List Nat :=
  (s.map charUtf8Bytes).flatten

/-- `FromStr for ChunkType`:
1. `if s.len() > 4` → the `"Chunk type must be 4 bytes long."` error;
2. the loop over `s.chars()` → the `"... ASCII letters."` error on the first
   non-alphabetic character;
3. `let mut bytes = [0; 4]; bytes.clone_from_slice(s.as_bytes())`, which
   panics unless `s.as_bytes()` is exactly 4 bytes long, then wraps the bytes.
-/
def from_str (s : List Char) : Except TagError ChunkType :=
  if (strUtf8 s).length > 4 then .error .tooLong
  else if s.any (fun c => ! isAsciiAlphabeticChar c) then .error .invalidCharacter
  else if (strUtf8 s).length = 4 then
    .ok ⟨(strUtf8 s).getD 0 0, (strUtf8 s).getD 1 0,
         (strUtf8 s).getD 2 0, (strUtf8 s).getD 3 0⟩
  else .error .panicLengthMismatch

/-- Continuation byte: `0x80..=0xBF`. -/
def isUtf8Cont (b : Nat) : Bool :=
  decide (0x80 ≤ b ∧ b ≤ 0xBF)

/-- Length of the UTF-8 sequence a leading byte announces (RFC 3629): 1 for
ASCII, 2 for `0xC2..=0xDF`, 3 for `0xE0..=0xEF`, 4 for `0xF0..=0xF4`, and 0
for bytes that can never lead a sequence (continuation bytes, the overlong
leads `0xC0`/`0xC1`, and `0xF5..=0xFF`). -/
def utf8Len (b : Nat) : Nat :=
  if b < 0x80 then 1
  else if 0xC2 ≤ b ∧ b ≤ 0xDF then 2
  else if 0xE0 ≤ b ∧ b ≤ 0xEF then 3
  else if 0xF0 ≤ b ∧ b ≤ 0xF4 then 4
  else 0

/-- Valid range of the first continuation byte, given the leading byte: the
narrowed ranges after `0xE0`/`0xED`/`0xF0`/`0xF4` exclude overlong forms,
surrogates and code points above `0x10FFFF`. -/
def utf8Cont1Ok (b b1 : Nat) : Bool :=
  if b = 0xE0 then decide (0xA0 ≤ b1 ∧ b1 ≤ 0xBF)
  else if b = 0xED then decide (0x80 ≤ b1 ∧ b1 ≤ 0x9F)
  else if b = 0xF0 then decide (0x90 ≤ b1 ∧ b1 ≤ 0xBF)
  else if b = 0xF4 then decide (0x80 ≤ b1 ∧ b1 ≤ 0x8F)
  else isUtf8Cont b1

/-- Code point of a 2-byte sequence. -/
def utf8Decode2 (b b1 : Nat) : Nat :=
  (b - 0xC0) * 0x40 + (b1 - 0x80)

/-- Code point of a 3-byte sequence. -/
def utf8Decode3 (b b1 b2 : Nat) : Nat :=
  (b - 0xE0) * 0x1000 + (b1 - 0x80) * 0x40 + (b2 - 0x80)

/-- Code point of a 4-byte sequence. -/
def utf8Decode4 (b b1 b2 b3 : Nat) : Nat :=
  (b - 0xF0) * 0x40000 + (b1 - 0x80) * 0x1000 + (b2 - 0x80) * 0x40 + (b3 - 0x80)

/-- UTF-8 decoding as `std::str::from_utf8` validates it: `some` of the code
points on valid input, `none` on invalid input (truncated sequences, stray
continuation bytes, overlong forms, surrogates, out-of-range leads). The
cases on the list shape expose the 1-4 bytes of a sequence to the pattern
matcher; a leading byte announcing more bytes than remain is a truncated
sequence and falls through to `none`. -/
def decodeUtf8 : List Nat → Option (List Nat)
  | [] => some []
  | [b] =>
    if utf8Len b = 1 then some [b] else none
  | [b, b1] =>
    if utf8Len b = 1 then (decodeUtf8 [b1]).map (fun cs => b :: cs)
    else if utf8Len b = 2 ∧ utf8Cont1Ok b b1 then some [utf8Decode2 b b1]
    else none
  | [b, b1, b2] =>
    if utf8Len b = 1 then (decodeUtf8 [b1, b2]).map (fun cs => b :: cs)
    else if utf8Len b = 2 ∧ utf8Cont1Ok b b1 then
      (decodeUtf8 [b2]).map (fun cs => utf8Decode2 b b1 :: cs)
    else if utf8Len b = 3 ∧ (utf8Cont1Ok b b1 && isUtf8Cont b2) then
      some [utf8Decode3 b b1 b2]
    else none
  | b :: b1 :: b2 :: b3 :: rest =>
    if utf8Len b = 1 then
      (decodeUtf8 (b1 :: b2 :: b3 :: rest)).map (fun cs => b :: cs)
    else if utf8Len b = 2 ∧ utf8Cont1Ok b b1 then
      (decodeUtf8 (b2 :: b3 :: rest)).map (fun cs => utf8Decode2 b b1 :: cs)
    else if utf8Len b = 3 ∧ (utf8Cont1Ok b b1 && isUtf8Cont b2) then
      (decodeUtf8 (b3 :: rest)).map (fun cs => utf8Decode3 b b1 b2 :: cs)
    else if utf8Len b = 4 ∧ (utf8Cont1Ok b b1 && isUtf8Cont b2 && isUtf8Cont b3) then
      (decodeUtf8 rest).map (fun cs => utf8Decode4 b b1 b2 b3 :: cs)
    else none

/-- `impl fmt::Display for ChunkType`: render the 4 stored bytes through
`std::str::from_utf8`. The `.expect` panic on invalid UTF-8 is modelled by
`none`; on success the written string is the decoded code-point sequence. -/
def display (t : ChunkType) : Option (List Nat) :=
  decodeUtf8 t.bytes

/-! ### Helper lemmas -/

lemma upper_alpha {b : Nat} (h : isAsciiUppercase b = true) :
    isAsciiAlphabetic b = true := by
  simp [isAsciiAlphabetic, h]

lemma alpha_lt_128 {b : Nat} (h : isAsciiAlphabetic b = true) : b < 128 := by
  simp [isAsciiAlphabetic, isAsciiUppercase, isAsciiLowercase] at h
  omega

lemma alphaChar_lt_128 {c : Char} (h : isAsciiAlphabeticChar c = true) :
    c.toNat < 128 :=
  alpha_lt_128 h

lemma charUtf8Bytes_of_lt {c : Char} (h : c.toNat < 128) :
    charUtf8Bytes c = [c.toNat] := by
  simp [charUtf8Bytes, h]

lemma strUtf8_of_ascii :
    ∀ s : List Char, (∀ c ∈ s, isAsciiAlphabeticChar c = true) →
      strUtf8 s = s.map Char.toNat
  | [], _ => rfl
  | c :: cs, h => by
    have hc : c.toNat < 128 :=
      alphaChar_lt_128 (h c (List.mem_cons_self c cs))
    have ih := strUtf8_of_ascii cs fun x hx => h x (List.mem_cons_of_mem c hx)
    simp only [strUtf8, List.map_cons, List.flatten_cons] at ih ⊢
    rw [charUtf8Bytes_of_lt hc, ih]
    rfl

lemma decodeUtf8_cons_ascii (b : Nat) (rest : List Nat) (hb : b < 128) :
    decodeUtf8 (b :: rest) = (decodeUtf8 rest).map (fun cs => b :: cs) := by
  have h1 : utf8Len b = 1 := by simp [utf8Len, hb]
  match rest with
  | [] => simp [decodeUtf8, h1]
  | [b1] => simp [decodeUtf8, h1]
  | [b1, b2] => simp [decodeUtf8, h1]
  | b1 :: b2 :: b3 :: tl => simp [decodeUtf8, h1]

lemma decodeUtf8_of_ascii (l : List Nat) (h : ∀ b ∈ l, b < 128) :
    decodeUtf8 l = some l := by
  induction l with
  | nil => rfl
  | cons b rest ih =>
    have hb : b < 128 := h b (List.mem_cons_self b rest)
    rw [decodeUtf8_cons_ascii b rest hb,
      ih fun x hx => h x (List.mem_cons_of_mem b hx)]
    rfl

lemma getD_four (l : List Nat) (h : l.length = 4) :
    [l.getD 0 0, l.getD 1 0, l.getD 2 0, l.getD 3 0] = l := by
  rcases l with _ | ⟨a, _ | ⟨b, _ | ⟨c, _ | ⟨d, _ | ⟨e, tl⟩⟩⟩⟩⟩ <;> simp_all

lemma try_from_ok_inv {b0 b1 b2 b3 : Nat} {t : ChunkType}
    (h : try_from b0 b1 b2 b3 = .ok t) :
    isAsciiAlphabetic b0 = true ∧ isAsciiAlphabetic b1 = true ∧
      isAsciiAlphabetic b2 = true ∧ t = ⟨b0, b1, b2, b3⟩ := by
  unfold try_from at h
  split_ifs at h with g0 g1 g2
  simp at g0 g1 g2
  injection h with h
  exact ⟨g0, g1, g2, h.symm⟩

lemma from_str_ok_inv {s : List Char} {t : ChunkType}
    (h : from_str s = .ok t) :
    (∀ c ∈ s, isAsciiAlphabeticChar c = true) ∧ s.length = 4 ∧
      t.bytes = s.map Char.toNat ∧ ∀ b ∈ t.bytes, isAsciiAlphabetic b = true := by
  unfold from_str at h
  split_ifs at h with g1 g2 g3
  injection h with h
  have halpha : ∀ c ∈ s, isAsciiAlphabeticChar c = true := by
    intro c hc
    by_contra hcon
    apply g2
    refine List.any_eq_true.mpr ⟨c, hc, ?_⟩
    have hfalse : isAsciiAlphabeticChar c = false := Bool.eq_false_iff.mpr hcon
    simp [hfalse]
  have hutf : strUtf8 s = s.map Char.toNat := strUtf8_of_ascii s halpha
  have hlen : s.length = 4 := by
    rw [hutf, List.length_map] at g3
    exact g3
  have hbytes : t.bytes = s.map Char.toNat := by
    rw [← h]
    show [(strUtf8 s).getD 0 0, (strUtf8 s).getD 1 0,
          (strUtf8 s).getD 2 0, (strUtf8 s).getD 3 0] = s.map Char.toNat
    rw [getD_four (strUtf8 s) g3, hutf]
  refine ⟨halpha, hlen, hbytes, ?_⟩
  intro b hb
  rw [hbytes] at hb
  obtain ⟨c, hc, hcb⟩ := List.mem_map.mp hb
  rw [← hcb]
  exact halpha c hc

lemma from_str_four_alpha {c0 c1 c2 c3 : Char}
    (h0 : isAsciiAlphabeticChar c0 = true) (h1 : isAsciiAlphabeticChar c1 = true)
    (h2 : isAsciiAlphabeticChar c2 = true) (h3 : isAsciiAlphabeticChar c3 = true) :
    from_str [c0, c1, c2, c3] = .ok ⟨c0.toNat, c1.toNat, c2.toNat, c3.toNat⟩ := by
  have halpha : ∀ c ∈ [c0, c1, c2, c3], isAsciiAlphabeticChar c = true := by
    simp_all
  have hutf : strUtf8 [c0, c1, c2, c3] = [c0.toNat, c1.toNat, c2.toNat, c3.toNat] :=
    strUtf8_of_ascii _ halpha
  unfold from_str
  rw [hutf]
  simp [h0, h1, h2, h3]

lemma is_valid_bool (t : ChunkType) :
    t.is_valid = (isAsciiAlphabetic t.b0 &&
      (isAsciiAlphabetic t.b1 && isAsciiUppercase t.b2)) := by
  have hr : List.range 3 = [0, 1, 2] := rfl
  rw [ChunkType.is_valid, hr]
  simp only [List.all_cons, List.all_nil, ChunkType.byteAt, ChunkType.bytes,
    ChunkType.is_reserved_bit_valid, List.getD_cons_zero, List.getD_cons_succ]
  cases hu : isAsciiUppercase t.b2 with
  | false => simp [hu]
  | true => simp [hu, upper_alpha hu]

/-! ### Claim theorems -/

/-- Claim C1, counterexample: the ASCII alphabetic text `"Rus"` has length 3,
at most 4, yet construction from text does not succeed — `clone_from_slice`
panics because the source slice has 3 bytes and the destination 4, instead of
leaving the remaining position zero. -/
theorem short_alpha_text_does_not_construct :
    (['R', 'u', 's'] : List Char).length ≤ 4
    ∧ (∀ c ∈ (['R', 'u', 's'] : List Char), isAsciiAlphabeticChar c = true)
    ∧ from_str ['R', 'u', 's'] = .error .panicLengthMismatch := by
  decide

/-- Claim C1 (amended): for every text of exactly 4 ASCII alphabetic
characters, construction from text succeeds, the resulting tag's 4 bytes are
the text's bytes, and the result equals constructing from the same 4 raw
bytes; text shorter than 4 characters instead hits the `clone_from_slice`
length-mismatch panic, so no zero-padded tag is ever produced. -/
theorem four_letter_text_equals_raw_construction (c0 c1 c2 c3 : Char)
    (h0 : isAsciiAlphabeticChar c0 = true) (h1 : isAsciiAlphabeticChar c1 = true)
    (h2 : isAsciiAlphabeticChar c2 = true) (h3 : isAsciiAlphabeticChar c3 = true) :
    from_str [c0, c1, c2, c3] = .ok ⟨c0.toNat, c1.toNat, c2.toNat, c3.toNat⟩
    ∧ try_from c0.toNat c1.toNat c2.toNat c3.toNat
        = .ok ⟨c0.toNat, c1.toNat, c2.toNat, c3.toNat⟩ := by
  refine ⟨from_str_four_alpha h0 h1 h2 h3, ?_⟩
  have g0 : isAsciiAlphabetic c0.toNat = true := h0
  have g1 : isAsciiAlphabetic c1.toNat = true := h1
  have g2 : isAsciiAlphabetic c2.toNat = true := h2
  unfold try_from
  simp [g0, g1, g2]

/-- Witness for the amended claim C1, at the text `"RuSt"`. -/
theorem four_letter_text_equals_raw_construction_witness :
    from_str ['R', 'u', 'S', 't'] = .ok ⟨82, 117, 83, 116⟩
    ∧ try_from 82 117 83 116 = .ok ⟨82, 117, 83, 116⟩ :=
  four_letter_text_equals_raw_construction 'R' 'u' 'S' 't'
    (by decide) (by decide) (by decide) (by decide)

/-- Claim C2, counterexample: construction from raw bytes accepts
`[65, 65, 65, 255]` (byte 3 is never validated), and rendering that tag
reaches the fatal branch — `from_utf8` rejects the byte sequence, so the
`.expect` fires. -/
theorem raw_tag_nonascii_fourth_byte_display_fatal :
    try_from 65 65 65 255 = .ok ⟨65, 65, 65, 255⟩
    ∧ display ⟨65, 65, 65, 255⟩ = none := by
  decide

/-- Claim C2 (amended): rendering never reaches the fatal branch for a tag
produced by text construction; for a tag produced from raw bytes the same
holds provided byte 3 is ASCII (< 128) — with a non-ASCII byte 3 the fatal
branch is reachable, as the counterexample shows. -/
theorem display_safe_on_constructed_tags :
    (∀ (s : List Char) (t : ChunkType), from_str s = .ok t →
      display t = some t.bytes)
    ∧ ∀ (b0 b1 b2 b3 : Nat) (t : ChunkType), b3 < 128 →
        try_from b0 b1 b2 b3 = .ok t → display t = some t.bytes := by
  constructor
  · intro s t h
    obtain ⟨-, -, -, hascii⟩ := from_str_ok_inv h
    exact decodeUtf8_of_ascii t.bytes fun b hb => alpha_lt_128 (hascii b hb)
  · intro b0 b1 b2 b3 t h3 h
    obtain ⟨h0, h1, h2, rfl⟩ := try_from_ok_inv h
    refine decodeUtf8_of_ascii _ ?_
    intro b hb
    simp [ChunkType.bytes] at hb
    rcases hb with rfl | rfl | rfl | rfl
    · exact alpha_lt_128 h0
    · exact alpha_lt_128 h1
    · exact alpha_lt_128 h2
    · exact h3

/-- Witness for the amended claim C2, at the text `"RuSt"`. -/
theorem display_safe_on_constructed_tags_witness :
    display ⟨82, 117, 83, 116⟩ = some [82, 117, 83, 116] :=
  display_safe_on_constructed_tags.1 ['R', 'u', 'S', 't'] ⟨82, 117, 83, 116⟩
    (by decide)

/-- Claim C3: whenever one of the first three bytes is not ASCII alphabetic,
construction from raw bytes fails with the invalid-character error. -/
theorem try_from_rejects_nonalpha_byte (b0 b1 b2 b3 : Nat)
    (hb0 : b0 < 256) (hb1 : b1 < 256) (hb2 : b2 < 256) (hb3 : b3 < 256)
    (h : isAsciiAlphabetic b0 = false ∨ isAsciiAlphabetic b1 = false ∨
      isAsciiAlphabetic b2 = false) :
    try_from b0 b1 b2 b3 = .error .invalidCharacter := by
  unfold try_from
  rcases h with h | h | h
  · simp [h]
  · by_cases h0 : isAsciiAlphabetic b0 <;> simp [h0, h]
  · by_cases h0 : isAsciiAlphabetic b0 <;> by_cases h1 : isAsciiAlphabetic b1 <;>
      simp [h0, h1, h]

/-- Witness for claim C3, at the bytes `[48, 117, 83, 116]` (`"0uSt"`). -/
theorem try_from_rejects_nonalpha_byte_witness :
    try_from 48 117 83 116 = .error .invalidCharacter :=
  try_from_rejects_nonalpha_byte 48 117 83 116
    (by decide) (by decide) (by decide) (by decide) (by decide)

/-- Claim C4, counterexample: the text `"ééé"` has 3 characters (at most 4)
and contains non-alphabetic characters, so the claim demands
`InvalidCharacter`; the code measures `s.len()` in UTF-8 bytes (6 here) and
reports `TooLong`. -/
theorem short_nonascii_text_reports_too_long :
    (['é', 'é', 'é'] : List Char).length ≤ 4
    ∧ (∃ c ∈ (['é', 'é', 'é'] : List Char), isAsciiAlphabeticChar c = false)
    ∧ from_str ['é', 'é', 'é'] = .error .tooLong := by
  decide

/-- Claim C4 (amended): length is measured in UTF-8 bytes (Rust's `s.len()`),
not characters: text construction fails with `TooLong` exactly when the
text's UTF-8 byte length exceeds 4, and fails with `InvalidCharacter` exactly
when the byte length is at most 4 and some character is not ASCII
alphabetic. -/
theorem from_str_failure_modes (s : List Char) :
    (from_str s = .error .tooLong ↔ 4 < (strUtf8 s).length)
    ∧ (from_str s = .error .invalidCharacter ↔
        (strUtf8 s).length ≤ 4 ∧ ∃ c ∈ s, isAsciiAlphabeticChar c = false) := by
  unfold from_str
  split_ifs with g1 g2 g3
  · refine ⟨iff_of_true rfl g1, ?_⟩
    constructor
    · intro h
      exact absurd (Except.error.inj h) (by decide)
    · intro ⟨hlen, _⟩
      omega
  · refine ⟨?_, ?_⟩
    · constructor
      · intro h
        exact absurd (Except.error.inj h) (by decide)
      · intro h
        omega
    · obtain ⟨c, hc, hcnot⟩ := List.any_eq_true.mp g2
      have hcf : isAsciiAlphabeticChar c = false := by
        revert hcnot
        cases isAsciiAlphabeticChar c <;> simp
      exact iff_of_true rfl ⟨by omega, c, hc, hcf⟩
  · refine ⟨?_, ?_⟩
    · constructor
      · intro h
        exact h.elim
      · intro h
        omega
    · constructor
      · intro h
        exact h.elim
      · intro ⟨hlen, c, hc, hcf⟩
        exact absurd (List.any_eq_true.mpr ⟨c, hc, by simp [hcf]⟩) g2
  · refine ⟨?_, ?_⟩
    · constructor
      · intro h
        exact absurd (Except.error.inj h) (by decide)
      · intro h
        omega
    · constructor
      · intro h
        exact absurd (Except.error.inj h) (by decide)
      · intro ⟨hlen, c, hc, hcf⟩
        exact absurd (List.any_eq_true.mpr ⟨c, hc, by simp [hcf]⟩) g2

/-- Claim C5: `is_valid` is true iff each of the first three bytes is ASCII
alphabetic and `is_reserved_bit_valid` holds; equivalently byte 2 is
uppercase and bytes 0 and 1 are alphabetic of either case; byte 3 is not
inspected: changing it never changes `is_valid`. -/
theorem is_valid_checks_first_three_bytes_and_reserved_bit (t : ChunkType) :
    (t.is_valid = true ↔
      ∀ i < 3, isAsciiAlphabetic (t.byteAt i) = true ∧
        t.is_reserved_bit_valid = true)
    ∧ (t.is_valid = true ↔
      isAsciiUppercase t.b2 = true ∧ isAsciiAlphabetic t.b0 = true ∧
        isAsciiAlphabetic t.b1 = true)
    ∧ ∀ x : Nat, ChunkType.is_valid ⟨t.b0, t.b1, t.b2, x⟩ = t.is_valid := by
  refine ⟨?_, ?_, ?_⟩
  · rw [is_valid_bool]
    constructor
    · intro hv i hi
      simp only [Bool.and_eq_true] at hv
      obtain ⟨h0, h1, h2⟩ := hv
      interval_cases i
      · exact ⟨h0, h2⟩
      · exact ⟨h1, h2⟩
      · exact ⟨upper_alpha h2, h2⟩
    · intro hall
      have h0 := (hall 0 (by omega)).1
      have h1 := (hall 1 (by omega)).1
      have h2 := (hall 2 (by omega)).2
      simp only [Bool.and_eq_true]
      exact ⟨h0, h1, h2⟩
  · rw [is_valid_bool]
    simp only [Bool.and_eq_true]
    tauto
  · intro x
    rw [is_valid_bool, is_valid_bool]

/-- Claim C6: raw-byte construction succeeds whenever the first three bytes
are ASCII alphabetic, for any value of byte 3, and `bytes()` returns the
original sequence unchanged. -/
theorem try_from_accepts_alpha_first_three (b0 b1 b2 b3 : Nat)
    (h0 : isAsciiAlphabetic b0 = true) (h1 : isAsciiAlphabetic b1 = true)
    (h2 : isAsciiAlphabetic b2 = true) (hb3 : b3 < 256) :
    try_from b0 b1 b2 b3 = .ok ⟨b0, b1, b2, b3⟩
    ∧ ChunkType.bytes ⟨b0, b1, b2, b3⟩ = [b0, b1, b2, b3] := by
  refine ⟨?_, rfl⟩
  unfold try_from
  simp [h0, h1, h2]

/-- Witness for claim C6, at the bytes `[82, 117, 83, 116]` (`"RuSt"`). -/
theorem try_from_accepts_alpha_first_three_witness :
    try_from 82 117 83 116 = .ok ⟨82, 117, 83, 116⟩
    ∧ ChunkType.bytes ⟨82, 117, 83, 116⟩ = [82, 117, 83, 116] :=
  try_from_accepts_alpha_first_three 82 117 83 116
    (by decide) (by decide) (by decide) (by decide)

/-- Claim C7: each case-bit predicate reads exactly one byte —
`is_critical` is true iff byte 0 is uppercase ASCII, `is_public` iff byte 1
is uppercase, `is_reserved_bit_valid` iff byte 2 is uppercase, and
`is_safe_to_copy` iff byte 3 is lowercase; all four are total functions on
arbitrary bytes, alphabetic or not. -/
theorem case_bit_predicates_read_one_byte (t : ChunkType) :
    (t.is_critical = true ↔ 65 ≤ t.b0 ∧ t.b0 ≤ 90)
    ∧ (t.is_public = true ↔ 65 ≤ t.b1 ∧ t.b1 ≤ 90)
    ∧ (t.is_reserved_bit_valid = true ↔ 65 ≤ t.b2 ∧ t.b2 ≤ 90)
    ∧ (t.is_safe_to_copy = true ↔ 97 ≤ t.b3 ∧ t.b3 ≤ 122) := by
  simp [ChunkType.is_critical, ChunkType.is_public, ChunkType.is_reserved_bit_valid,
    ChunkType.is_safe_to_copy, ChunkType.byteAt, ChunkType.bytes,
    isAsciiUppercase, isAsciiLowercase, List.getD_cons_zero, List.getD_cons_succ]

/-- Claim C8: the tag built from the text `"RuSt"` renders back to exactly
the string `"RuSt"`. -/
theorem rust_tag_roundtrip :
    from_str ['R', 'u', 'S', 't'] = .ok ⟨82, 117, 83, 116⟩
    ∧ display ⟨82, 117, 83, 116⟩ = some (['R', 'u', 'S', 't'].map Char.toNat) := by
  decide

/-- Claim C9: for every tag produced by either constructor, `is_valid`
agrees with `is_reserved_bit_valid` — both construction paths guarantee the
first three bytes are alphabetic, so only byte 2's case can still fail
`is_valid`. -/
theorem constructed_tag_is_valid_iff_reserved_bit :
    (∀ (b0 b1 b2 b3 : Nat) (t : ChunkType), try_from b0 b1 b2 b3 = .ok t →
      t.is_valid = t.is_reserved_bit_valid)
    ∧ ∀ (s : List Char) (t : ChunkType), from_str s = .ok t →
        t.is_valid = t.is_reserved_bit_valid := by
  have key : ∀ t : ChunkType, isAsciiAlphabetic t.b0 = true →
      isAsciiAlphabetic t.b1 = true → t.is_valid = t.is_reserved_bit_valid := by
    intro t h0 h1
    rw [is_valid_bool, h0, h1]
    simp [ChunkType.is_reserved_bit_valid, ChunkType.byteAt, ChunkType.bytes]
  constructor
  · intro b0 b1 b2 b3 t h
    obtain ⟨h0, h1, h2, rfl⟩ := try_from_ok_inv h
    exact key _ h0 h1
  · intro s t h
    obtain ⟨-, -, -, hascii⟩ := from_str_ok_inv h
    exact key t (hascii t.b0 (by simp [ChunkType.bytes]))
      (hascii t.b1 (by simp [ChunkType.bytes]))

/-- Witness for claim C9, at the bytes `[82, 117, 83, 116]`. -/
theorem constructed_tag_is_valid_iff_reserved_bit_witness :
    ChunkType.is_valid ⟨82, 117, 83, 116⟩
      = ChunkType.is_reserved_bit_valid ⟨82, 117, 83, 116⟩ :=
  constructed_tag_is_valid_iff_reserved_bit.1 82 117 83 116 ⟨82, 117, 83, 116⟩
    (by decide)

/-- Claim C10: every tag that text construction returns stores 4 ASCII bytes
(the input is necessarily exactly 4 ASCII alphabetic characters), rendering
it never reaches the fatal branch and yields exactly the input's bytes; in
particular construction from any 4 ASCII alphabetic characters followed by
rendering returns the original string. -/
theorem from_str_tag_ascii_roundtrip :
    (∀ (s : List Char) (t : ChunkType), from_str s = .ok t →
      (∀ b ∈ t.bytes, b < 128) ∧ s.length = 4 ∧
        (∀ c ∈ s, isAsciiAlphabeticChar c = true) ∧
        t.bytes = s.map Char.toNat ∧ display t = some (s.map Char.toNat))
    ∧ ∀ c0 c1 c2 c3 : Char,
        isAsciiAlphabeticChar c0 = true → isAsciiAlphabeticChar c1 = true →
        isAsciiAlphabeticChar c2 = true → isAsciiAlphabeticChar c3 = true →
        ∃ t : ChunkType, from_str [c0, c1, c2, c3] = .ok t ∧
          display t = some ([c0, c1, c2, c3].map Char.toNat) := by
  have main : ∀ (s : List Char) (t : ChunkType), from_str s = .ok t →
      (∀ b ∈ t.bytes, b < 128) ∧ s.length = 4 ∧
        (∀ c ∈ s, isAsciiAlphabeticChar c = true) ∧
        t.bytes = s.map Char.toNat ∧ display t = some (s.map Char.toNat) := by
    intro s t h
    obtain ⟨halpha, hlen, hbytes, hascii⟩ := from_str_ok_inv h
    have hlt : ∀ b ∈ t.bytes, b < 128 := fun b hb => alpha_lt_128 (hascii b hb)
    refine ⟨hlt, hlen, halpha, hbytes, ?_⟩
    have hd : decodeUtf8 t.bytes = some t.bytes := decodeUtf8_of_ascii t.bytes hlt
    rw [show display t = decodeUtf8 t.bytes from rfl, hd, hbytes]
  refine ⟨main, ?_⟩
  intro c0 c1 c2 c3 h0 h1 h2 h3
  refine ⟨⟨c0.toNat, c1.toNat, c2.toNat, c3.toNat⟩, from_str_four_alpha h0 h1 h2 h3, ?_⟩
  exact (main _ _ (from_str_four_alpha h0 h1 h2 h3)).2.2.2.2

/-- Witness for claim C10, at the text `"RuSt"`. -/
theorem from_str_tag_ascii_roundtrip_witness :
    (∀ b ∈ ChunkType.bytes ⟨82, 117, 83, 116⟩, b < 128)
    ∧ (['R', 'u', 'S', 't'] : List Char).length = 4
    ∧ (∀ c ∈ (['R', 'u', 'S', 't'] : List Char), isAsciiAlphabeticChar c = true)
    ∧ ChunkType.bytes ⟨82, 117, 83, 116⟩ = ['R', 'u', 'S', 't'].map Char.toNat
    ∧ display ⟨82, 117, 83, 116⟩ = some (['R', 'u', 'S', 't'].map Char.toNat) :=
  from_str_tag_ascii_roundtrip.1 ['R', 'u', 'S', 't'] ⟨82, 117, 83, 116⟩
    (by decide)

end Pngcrypt
